import Mathlib

/-!
# Medbox firmware (`firmware/src/main.cpp`)

A shallow embedding of the sketch: `callback`, `setup_wifi`, `reconnect`,
`setup` and `loop`, run against an explicit model of the platform (serial
port, WiFi interface, MQTT client object).

* Every call into the platform that the specification talks about is appended to
  `World.trace` as an `Event`: the call itself (`Action`) together with the
  value of the yield counter and of `client.connected()` at the moment of the
  call.
* The outside world is an `Env`: it answers the status polls, the connection
  attempts and the library polling step.  The outside world only moves at the
  blocking calls `delay(ms)` and `client.loop()` (the yield points); all other
  statements are instantaneous.
* The two `while` loops take a bound on the number of times their body may
  run; an execution that is still inside the loop when the bound is reached is
  reported as `Run.blocked`, together with the state reached so far.
-/

namespace Medbox

/-! ## Platform types -/

/-- Status codes of the network interface, the enumeration `wl_status_t` of the
platform WiFi library. -/
inductive wl_status_t
  | WL_NO_SHIELD
  | WL_IDLE_STATUS
  | WL_NO_SSID_AVAIL
  | WL_SCAN_COMPLETED
  | WL_CONNECTED
  | WL_CONNECT_FAILED
  | WL_CONNECTION_LOST
  | WL_DISCONNECTED
  deriving DecidableEq

/-- The compile-time constants that `main.cpp` takes from `secrets.h`; that
header is not among the sources, so the four constants are parameters. -/
structure Secrets where
  WIFI_SSID : String
  WIFI_PASSWORD : String
  MQTT_USERNAME : String
  MQTT_PASSWORD : String

/-- An incoming MQTT message: topic and payload bytes. -/
structure Message where
  topic : String
  payload : List (Fin 256)

/-- Calls into the platform, as recorded in the trace.  `connect` also records
the boolean that the call returned. -/
inductive Action
  | serialBegin (baud : Nat)
  | delay (ms : Nat)
  | wifiBegin (ssid password : String)
  | setServer (host : String) (port : Nat)
  | setCallback
  | connect (clientId user pass : String) (ok : Bool)
  | subscribe (topic : String)
  | publish (topic payload : String)
  | poll
  deriving DecidableEq

/-- A recorded call: the action, the number of yield points elapsed when it was
made, and the value of `client.connected()` when it was made. -/
structure Event where
  act : Action
  clock : Nat
  session : Bool
  deriving DecidableEq

/-- The outside world.
* `macAddress`, `localIP`: what `WiFi.macAddress()` and `WiFi.localIP()` return.
* `wifiStatus c`: what `WiFi.status()` returns once `c` yield points have elapsed.
* `brokerAccepts k`: whether the `k`-th call of `client.connect` (from 0) succeeds.
* `failureState k`: the value of `client.state()` after the `k`-th call failed.
* `sessionSurvives c`: whether an established broker session is still up after
  yield point number `c`.
* `inbox c`: the message, if any, handed to the registered callback by a
  `client.loop()` call made when `c` yield points have elapsed. -/
structure Env where
  macAddress : String
  localIP : String
  wifiStatus : Nat → wl_status_t
  brokerAccepts : Nat → Bool
  failureState : Nat → Int
  sessionSurvives : Nat → Bool
  inbox : Nat → Option Message

/-- Program and platform state.
* `clock`: number of yield points (`delay`, `client.loop()`) elapsed.
* `attempts`: number of `client.connect` calls made.
* `session`: the value of `client.connected()`.
* `state`: the value of `client.state()`.
* `callbackSet`: whether `client.setCallback` has registered the handler.
* `dispenseRequested`: the global flag of line 18.
* `trace`: the recorded platform calls, oldest first.
* `serial`: what was written to the serial port, oldest first. -/
structure World where
  clock : Nat
  attempts : Nat
  session : Bool
  state : Int
  callbackSet : Bool
  dispenseRequested : Bool
  trace : List Event
  serial : List String

/-- State at power-up: `bool dispenseRequested = false`, client not connected
(`client.state()` is `MQTT_DISCONNECTED`, -1), nothing recorded. -/
def World.init : World :=
  { clock := 0, attempts := 0, session := false, state := -1, callbackSet := false,
    dispenseRequested := false, trace := [], serial := [] }

/-- Outcome of running code that contains a `while` loop under a bound on the
number of body executions: the code returned, or it is still inside the loop. -/
inductive Run
  | returned (w : World)
  | blocked (w : World)

/-- The state carried by an outcome. -/
def Run.world : Run → World
  | .returned w => w
  | .blocked w => w

/-- Continue with the straight-line code `f` after a call that returned. -/
def Run.map (f : World → World) : Run → Run
  | .returned w => .returned (f w)
  | .blocked w => .blocked w

/-- Continue with `f` after a call that returned. -/
def Run.bind (r : Run) (f : World → Run) : Run :=
  match r with
  | .returned w => f w
  | .blocked w => .blocked w

/-- The actions of a trace, in order. -/
def actions (w : World) : List Action := w.trace.map Event.act

/-- The events recorded between state `w` and a later state `w2`. -/
def appended (w w2 : World) : List Event := w2.trace.drop w.trace.length

/-- The actions recorded between state `w` and a later state `w2`. -/
def performed (w w2 : World) : List Action := (appended w w2).map Event.act

/-- Sum of the `delay` arguments in a list of actions, in milliseconds. -/
def totalDelay : List Action → Nat
  | [] => 0
  | .delay ms :: rest => ms + totalDelay rest
  | _ :: rest => totalDelay rest

/-! ## Platform primitives -/

/-- Append a platform call to the trace, stamped with the current yield count
and the current value of `client.connected()`. -/
def record (a : Action) (w : World) : World :=
  { w with trace := w.trace ++ [{ act := a, clock := w.clock, session := w.session }] }

/-- A yield point: the outside world moves one step; an established session
stays up only if the outside world keeps it up. -/
def tick (env : Env) (w : World) : World :=
  { w with clock := w.clock + 1, session := w.session && env.sessionSurvives w.clock }

/-- `Serial.begin(baud)`. -/
def Serial_begin (baud : Nat) (w : World) : World := record (.serialBegin baud) w

/-- `Serial.print(s)`. -/
def Serial_print (s : String) (w : World) : World :=
  { w with serial := w.serial ++ [s] }

/-- `Serial.println(s)`. -/
def Serial_println (s : String) (w : World) : World :=
  { w with serial := w.serial ++ [s ++ "\r\n"] }

/-- `delay(ms)`: recorded, then one yield point. -/
def delay (env : Env) (ms : Nat) (w : World) : World := tick env (record (.delay ms) w)

/-- `WiFi.begin(ssid, password)`. -/
def WiFi_begin (ssid password : String) (w : World) : World :=
  record (.wifiBegin ssid password) w

/-- `WiFi.status()`. -/
def WiFi_status (env : Env) (w : World) : wl_status_t := env.wifiStatus w.clock

/-- `WiFi.macAddress()`. -/
def WiFi_macAddress (env : Env) : String := env.macAddress

/-- `WiFi.localIP()`. -/
def WiFi_localIP (env : Env) : String := env.localIP

/-- `client.connected()`. -/
def client_connected (w : World) : Bool := w.session

/-- `client.state()`. -/
def client_state (w : World) : Int := w.state

/-- `client.connect(id, user, pass)`: the broker's answer to this attempt
decides the result; on success the session is up and the state is
`MQTT_CONNECTED` (0). -/
def client_connect (env : Env) (id user pass : String) (w : World) : Bool × World :=
  let ok := env.brokerAccepts w.attempts
  let w1 := record (.connect id user pass ok) w
  (ok, { w1 with attempts := w1.attempts + 1, session := ok,
                 state := if ok then 0 else env.failureState w.attempts })

/-- `client.subscribe(topic)`. -/
def client_subscribe (topic : String) (w : World) : World := record (.subscribe topic) w

/-- `client.publish(topic, payload)`. -/
def client_publish (topic payload : String) (w : World) : World :=
  record (.publish topic payload) w

/-- `client.setServer(host, port)`. -/
def client_setServer (host : String) (port : Nat) (w : World) : World :=
  record (.setServer host port) w

/-- `client.setCallback(callback)`. -/
def client_setCallback (w : World) : World :=
  { record .setCallback w with callbackSet := true }

/-! ## The sketch -/

/-- Line 6: `ssid = WIFI_SSID`. -/
def ssid (sec : Secrets) : String := sec.WIFI_SSID

/-- Line 7: `password = WIFI_PASSWORD`. -/
def password (sec : Secrets) : String := sec.WIFI_PASSWORD

/-- Line 10. -/
def mqtt_server : String := "192.168.0.210"

/-- Line 11. -/
def mqtt_username (sec : Secrets) : String := sec.MQTT_USERNAME

/-- Line 12. -/
def mqtt_password (sec : Secrets) : String := sec.MQTT_PASSWORD

/-- Line 13. -/
def mqtt_port : Nat := 1883

/-- Body of the `for` loop of lines 27-30: print the byte as a character and
append it to the local `messageTemp`. -/
def callback_for (acc : World × String) (b : Fin 256) : World × String :=
  (Serial_print (String.singleton (Char.ofNat b.val)) acc.1, acc.2.push (Char.ofNat b.val))

/-- Lines 20-39, `callback(topic, message, length)`; `message` is the list of
the `length` payload bytes.  The client library hands over at most one packet
buffer (its size is a 16-bit number), so the `int` counter of the `for` loop
stays below `length` without wrapping and the loop is a fold over the bytes. -/
def callback (env : Env) (topic : String) (message : List (Fin 256)) (w : World) : World :=
  let w := Serial_print "Message arrived on topic: " w
  let w := Serial_print topic w
  let w := Serial_print ". Message: " w
  let r := message.foldl callback_for (w, "")
  let w := Serial_println "" r.1
  if topic = "medbox/01/dispense" then
    let w := Serial_println "dispense called" w
    let w := delay env 3000 w
    let w := client_publish "medbox/01/dispensed" "true" w
    Serial_println "ack sent" w
  else
    w

/-- `client.loop()`, the polling step of the MQTT client library: when the
session is up it hands the pending message, if any, to the registered
callback; it is a yield point. -/
def client_loop (env : Env) (w : World) : World :=
  let w := record .poll w
  if client_connected w then
    match env.inbox w.clock with
    | some m => tick env (if w.callbackSet then callback env m.topic m.payload w else w)
    | none => tick env w
  else
    tick env w

/-- Lines 49-52, the `while` loop of `setup_wifi`; `fuel` bounds the number of
body executions. -/
def setup_wifi_while (env : Env) : Nat → World → Run
  | 0, w => if WiFi_status env w ≠ .WL_CONNECTED then .blocked w else .returned w
  | fuel + 1, w =>
    if WiFi_status env w ≠ .WL_CONNECTED then
      let w := delay env 500 w
      let w := Serial_print "." w
      setup_wifi_while env fuel w
    else
      .returned w

/-- Lines 41-56, `setup_wifi()`. -/
def setup_wifi (sec : Secrets) (env : Env) (fuel : Nat) (w : World) : Run :=
  let w := delay env 10 w
  let w := Serial_println "" w
  let w := Serial_print "Connecting to " w
  let w := Serial_println (ssid sec) w
  let w := WiFi_begin (ssid sec) (password sec) w
  (setup_wifi_while env fuel w).map fun w =>
    let w := Serial_println "WiFi connected" w
    let w := Serial_println "IP address: " w
    Serial_println (WiFi_localIP env) w

/-- Line 64: `String("esp32-client-") += String(WiFi.macAddress())`. -/
def client_id (mac : String) : String := "esp32-client-" ++ mac

/-- Lines 61-77, the body of the `while` loop of `reconnect`. -/
def reconnect_body (sec : Secrets) (env : Env) (w : World) : World :=
  let w := Serial_print "Attempting MQTT connection..." w
  let id := client_id (WiFi_macAddress env)
  let r := client_connect env id (mqtt_username sec) (mqtt_password sec) w
  if r.1 then
    let w := Serial_println "connected" r.2
    client_subscribe "medbox/01/dispense" w
  else
    let w := Serial_print "failed, rc=" r.2
    let w := Serial_print (toString (client_state w)) w
    let w := Serial_println " try again in 2 seconds" w
    delay env 2000 w

/-- Lines 58-79, `reconnect()`; `fuel` bounds the number of body executions. -/
def reconnect (sec : Secrets) (env : Env) : Nat → World → Run
  | 0, w => if !client_connected w then .blocked w else .returned w
  | fuel + 1, w =>
    if !client_connected w then
      reconnect sec env fuel (reconnect_body sec env w)
    else
      .returned w

/-- Lines 82-89, `setup()`. -/
def setup (sec : Secrets) (env : Env) (fuel : Nat) (w : World) : Run :=
  let w := Serial_begin 115200 w
  (setup_wifi sec env fuel w).map fun w =>
    let w := client_setServer mqtt_server 1883 w
    client_setCallback w

/-- Lines 91-99, `loop()`. -/
def loop (sec : Secrets) (env : Env) (fuel : Nat) (w : World) : Run :=
  (if !client_connected w then reconnect sec env fuel w else .returned w).map
    (client_loop env)

/-- The first `iters` iterations of `loop()`, as the Arduino core calls it. -/
def iterate (sec : Secrets) (env : Env) (fuel : Nat) : Nat → World → Run
  | 0, w => .returned w
  | iters + 1, w => (loop sec env fuel w).bind (iterate sec env fuel iters)

/-- The whole program from power-up: `setup()` once, then `iters` iterations of
`loop()`. -/
def program (sec : Secrets) (env : Env) (fuel iters : Nat) : Run :=
  (setup sec env fuel World.init).bind (iterate sec env fuel iters)

/-! ## Auxiliary definitions used in the statements -/

/-- What the `for` loop of `callback` writes to the serial port. -/
def payloadLog (message : List (Fin 256)) : List String :=
  message.map fun b => String.singleton (Char.ofNat b.val)

/-- What `callback` writes to the serial port before it looks at the topic. -/
def callbackLog (topic : String) (message : List (Fin 256)) : List String :=
  ["Message arrived on topic: ", topic, ". Message: "] ++ payloadLog message ++ ["\r\n"]


/-- The two platform calls of one iteration of `reconnect` whose connection
attempt fails. -/
def failedAttempt (sec : Secrets) (env : Env) : List Action :=
  [.connect (client_id (WiFi_macAddress env)) (mqtt_username sec) (mqtt_password sec) false,
   .delay 2000]

/-- The two platform calls of the iteration of `reconnect` whose connection
attempt succeeds. -/
def acceptedAttempt (sec : Secrets) (env : Env) : List Action :=
  [.connect (client_id (WiFi_macAddress env)) (mqtt_username sec) (mqtt_password sec) true,
   .subscribe "medbox/01/dispense"]

/-- `n` failed iterations of `reconnect` in a row. -/
def failedAttempts (sec : Secrets) (env : Env) : Nat → List Action
  | 0 => []
  | n + 1 => failedAttempt sec env ++ failedAttempts sec env n

/-- Number of `client.connect` calls in a list of actions. -/
def connectCalls : List Action → Nat
  | [] => 0
  | .connect _ _ _ _ :: rest => 1 + connectCalls rest
  | _ :: rest => connectCalls rest
/-- The events recorded by an iteration of `reconnect` from state `w` whose
connection attempt fails. -/
def failedEvents (sec : Secrets) (env : Env) (w : World) : List Event :=
  [{ act := .connect (client_id (WiFi_macAddress env)) (mqtt_username sec) (mqtt_password sec)
        false, clock := w.clock, session := w.session },
   { act := .delay 2000, clock := w.clock, session := false }]

/-- The events recorded by an iteration of `reconnect` from state `w` whose
connection attempt succeeds. -/
def acceptedEvents (sec : Secrets) (env : Env) (w : World) : List Event :=
  [{ act := .connect (client_id (WiFi_macAddress env)) (mqtt_username sec) (mqtt_password sec)
        true, clock := w.clock, session := w.session },
   { act := .subscribe "medbox/01/dispense", clock := w.clock, session := true }]

/-- Whether an action is a `client.connect` call. -/
def Action.isConnect : Action → Bool
  | .connect _ _ _ _ => true
  | _ => false

/-- Whether an action is a `client.subscribe` call. -/
def Action.isSubscribe : Action → Bool
  | .subscribe _ => true
  | _ => false

/-- Whether an action is a `client.publish` call. -/
def Action.isPublish : Action → Bool
  | .publish _ _ => true
  | _ => false

/-- What holds of the value of `client.connected()` at a recorded call: it is
true at every `subscribe` and at every `delay(3000)` (the entry of the
dispense branch of `callback`), and at a `publish` it is true exactly when the
session survived the yield point just before it. -/
def EventOk (env : Env) (e : Event) : Prop :=
  (e.act.isSubscribe = true → e.session = true) ∧
  (e.act = .delay 3000 → e.session = true) ∧
  (e.act.isPublish = true → e.session = env.sessionSurvives (e.clock - 1))

/-- Every recorded call of a state satisfies `EventOk`. -/
def AllOk (env : Env) (w : World) : Prop := ∀ e ∈ w.trace, EventOk env e

/-- Sample constants for `secrets.h`. -/
def sampleSecrets : Secrets :=
  { WIFI_SSID := "home", WIFI_PASSWORD := "wifipass", MQTT_USERNAME := "medbox",
    MQTT_PASSWORD := "mqttpass" }

/-- An outside world in which the network is up when `setup_wifi` first polls
it and is lost afterwards, and in which the broker is never reached. -/
def wifiLostEnv : Env :=
  { macAddress := "24:6F:28:00:00:01", localIP := "192.168.0.50",
    wifiStatus := fun c => if c ≤ 1 then .WL_CONNECTED else .WL_CONNECTION_LOST,
    brokerAccepts := fun _ => false, failureState := fun _ => -2,
    sessionSurvives := fun _ => true, inbox := fun _ => none }

/-- An outside world in which the network never comes up. -/
def noWifiEnv : Env :=
  { macAddress := "24:6F:28:00:00:01", localIP := "0.0.0.0",
    wifiStatus := fun _ => .WL_DISCONNECTED,
    brokerAccepts := fun _ => false, failureState := fun _ => -2,
    sessionSurvives := fun _ => true, inbox := fun _ => none }

/-- An outside world in which network and broker are up at once, a dispense
request is pending at the first `client.loop()` call, and the broker session
is lost during the yield point that follows (the 3000 ms delay of `callback`). -/
def sessionLostEnv : Env :=
  { macAddress := "24:6F:28:00:00:01", localIP := "192.168.0.50",
    wifiStatus := fun _ => .WL_CONNECTED,
    brokerAccepts := fun _ => true, failureState := fun _ => -2,
    sessionSurvives := fun c => decide (c ≠ 1),
    inbox := fun c => if c = 1 then some { topic := "medbox/01/dispense", payload := [49] }
      else none }

/-- An outside world in which the network comes up at the third poll and the
broker accepts the third connection attempt. -/
def slowEnv : Env :=
  { macAddress := "24:6F:28:00:00:01", localIP := "192.168.0.50",
    wifiStatus := fun c => if c < 3 then .WL_DISCONNECTED else .WL_CONNECTED,
    brokerAccepts := fun k => decide (2 ≤ k), failureState := fun _ => -2,
    sessionSurvives := fun _ => true, inbox := fun _ => none }

/-- The state `w` with the flag `dispenseRequested` holding `b`. -/
def setFlag (b : Bool) (w : World) : World := { w with dispenseRequested := b }

/-- The outcome `r` with the flag `dispenseRequested` of its state holding `b`. -/
def Run.withFlag (b : Bool) : Run → Run
  | .returned w => .returned (setFlag b w)
  | .blocked w => .blocked (setFlag b w)

/-! ## Lemmas -/

theorem callback_for_foldl (message : List (Fin 256)) (w : World) (s : String) :
    (message.foldl callback_for (w, s)).1 =
      { w with serial := w.serial ++ payloadLog message } := by
  induction message generalizing w s with
  | nil => simp [payloadLog]
  | cons b rest ih =>
    rw [List.foldl_cons, show callback_for (w, s) b =
      (Serial_print (String.singleton (Char.ofNat b.val)) w, s.push (Char.ofNat b.val)) from rfl, ih]
    simp [Serial_print, payloadLog]

theorem callback_dispense (env : Env) (message : List (Fin 256)) (w : World) :
    callback env "medbox/01/dispense" message w =
      { w with
        clock := w.clock + 1
        session := w.session && env.sessionSurvives w.clock
        trace := w.trace ++
          [{ act := .delay 3000, clock := w.clock, session := w.session },
           { act := .publish "medbox/01/dispensed" "true", clock := w.clock + 1,
             session := w.session && env.sessionSurvives w.clock }]
        serial := w.serial ++ callbackLog "medbox/01/dispense" message ++
          ["dispense called\r\n", "ack sent\r\n"] } := by
  unfold callback
  simp only [callback_for_foldl]
  simp [Serial_print, Serial_println, delay, tick, record, client_publish, callbackLog]

theorem callback_other (env : Env) (topic : String) (message : List (Fin 256)) (w : World)
    (h : topic ≠ "medbox/01/dispense") :
    callback env topic message w = { w with serial := w.serial ++ callbackLog topic message } := by
  unfold callback
  simp only [callback_for_foldl]
  simp [Serial_print, Serial_println, callbackLog, h]

theorem performed_of_trace {w w2 : World} {l : List Event} (h : w2.trace = w.trace ++ l) :
    performed w w2 = l.map Event.act := by
  simp [performed, appended, h]

theorem actions_of_trace {w w2 : World} {l : List Event} (h : w2.trace = w.trace ++ l) :
    actions w2 = actions w ++ performed w w2 := by
  rw [performed_of_trace h]
  simp [actions, h]

/-- Claim C1: for every payload, `callback` called with the topic
"medbox/01/dispense" performs exactly two platform calls, in this order: one
`delay(3000)` and then one `publish("medbox/01/dispensed", "true")`; no other
publish or delay, no subscribe, no connect: the recorded calls of the
resulting state are those of the starting state followed by these two. -/
theorem callback_dispense_actions (env : Env) (message : List (Fin 256)) (w : World) :
    performed w (callback env "medbox/01/dispense" message w) =
      [.delay 3000, .publish "medbox/01/dispensed" "true"] ∧
    actions (callback env "medbox/01/dispense" message w) =
      actions w ++ [.delay 3000, .publish "medbox/01/dispensed" "true"] := by
  rw [callback_dispense]
  simp [performed, appended, actions]

/-- Claim C2: for every topic different from "medbox/01/dispense" and every
payload, `callback` performs no platform call at all (no publish, no delay: the
trace and the yield counter are unchanged); this covers the acknowledgment
topic "medbox/01/dispensed", topics differing only in case, the strict prefix
"medbox/01" and the empty topic, so the acknowledgment cannot trigger a
dispense. -/
theorem callback_ignores_other_topics (env : Env) (topic : String) (message : List (Fin 256))
    (w : World) (h : topic ≠ "medbox/01/dispense") :
    performed w (callback env topic message w) = [] ∧
    (callback env topic message w).trace = w.trace ∧
    (callback env topic message w).clock = w.clock ∧
    (∀ t ∈ ["medbox/01/dispensed", "MEDBOX/01/DISPENSE", "Medbox/01/Dispense", "medbox/01", ""],
      performed w (callback env t message w) = []) := by
  have key : ∀ t, t ≠ "medbox/01/dispense" → performed w (callback env t message w) = [] := by
    intro t ht
    rw [callback_other env t message w ht]
    exact performed_of_trace (l := []) (by simp)
  refine ⟨key topic h, ?_, ?_, ?_⟩
  · rw [callback_other env topic message w h]
  · rw [callback_other env topic message w h]
  · intro t ht
    apply key
    simp only [List.mem_cons, List.mem_singleton, List.not_mem_nil, or_false] at ht
    rcases ht with rfl | rfl | rfl | rfl | rfl <;> decide

/-- Claim C9: for every topic and every two payloads, `callback` performs the
same platform calls with the same arguments, and reaches states that agree in
everything except what was written to the serial port. -/
theorem callback_payload_ignored (env : Env) (topic : String) (p1 p2 : List (Fin 256))
    (w : World) :
    performed w (callback env topic p1 w) = performed w (callback env topic p2 w) ∧
    { callback env topic p1 w with serial := [] } = { callback env topic p2 w with serial := [] } := by
  by_cases h : topic = "medbox/01/dispense"
  · subst h
    simp only [callback_dispense]
    exact ⟨rfl, trivial⟩
  · simp only [callback_other env topic _ w h]
    exact ⟨rfl, trivial⟩

theorem setup_wifi_while_returns (env : Env) : ∀ (n fuel : Nat) (w : World), n ≤ fuel →
    (∀ j < n, env.wifiStatus (w.clock + j) ≠ .WL_CONNECTED) →
    env.wifiStatus (w.clock + n) = .WL_CONNECTED →
    ∃ w2 l, setup_wifi_while env fuel w = .returned w2 ∧ w2.trace = w.trace ++ l ∧
      l.map Event.act = List.replicate n (.delay 500) ∧ w2.clock = w.clock + n := by
  intro n
  induction n with
  | zero =>
    intro fuel w _ _ hup
    refine ⟨w, [], ?_, by simp, rfl, rfl⟩
    cases fuel <;> simp_all [setup_wifi_while, WiFi_status]
  | succ n ih =>
    intro fuel w hle hdown hup
    obtain ⟨f, rfl⟩ : ∃ f, fuel = f + 1 := ⟨fuel - 1, by omega⟩
    have h0 : env.wifiStatus w.clock ≠ .WL_CONNECTED := by simpa using hdown 0 (by omega)
    obtain ⟨w2, l, hrun, htr, hact, hclk⟩ :=
      ih f (Serial_print "." (delay env 500 w)) (by omega)
        (by
          intro j hj
          have := hdown (j + 1) (by omega)
          simpa [Serial_print, delay, tick, record, Nat.add_assoc, Nat.add_comm 1 j] using this)
        (by simpa [Serial_print, delay, tick, record, Nat.add_assoc, Nat.add_comm 1 n] using hup)
    refine ⟨w2, { act := .delay 500, clock := w.clock, session := w.session } :: l, ?_, ?_, ?_, ?_⟩
    · simp only [setup_wifi_while, WiFi_status, ne_eq, h0, not_false_eq_true, if_true]
      exact hrun
    · rw [htr]
      simp [Serial_print, delay, tick, record]
    · simp [hact, List.replicate_succ]
    · rw [hclk]
      simp [Serial_print, delay, tick, record]
      omega

theorem setup_wifi_while_blocks (env : Env) : ∀ (fuel : Nat) (w : World),
    (∀ j ≤ fuel, env.wifiStatus (w.clock + j) ≠ .WL_CONNECTED) →
    ∃ w2 l, setup_wifi_while env fuel w = .blocked w2 ∧ w2.trace = w.trace ++ l ∧
      l.map Event.act = List.replicate fuel (.delay 500) ∧ w2.clock = w.clock + fuel := by
  intro fuel
  induction fuel with
  | zero =>
    intro w hdown
    have h0 : env.wifiStatus w.clock ≠ .WL_CONNECTED := by simpa using hdown 0 (by omega)
    exact ⟨w, [], by simp [setup_wifi_while, WiFi_status, h0], by simp, rfl, rfl⟩
  | succ f ih =>
    intro w hdown
    have h0 : env.wifiStatus w.clock ≠ .WL_CONNECTED := by simpa using hdown 0 (by omega)
    obtain ⟨w2, l, hrun, htr, hact, hclk⟩ :=
      ih (Serial_print "." (delay env 500 w))
        (by
          intro j hj
          have := hdown (j + 1) (by omega)
          simpa [Serial_print, delay, tick, record, Nat.add_assoc, Nat.add_comm 1 j] using this)
    refine ⟨w2, { act := .delay 500, clock := w.clock, session := w.session } :: l, ?_, ?_, ?_, ?_⟩
    · simp only [setup_wifi_while, WiFi_status, ne_eq, h0, not_false_eq_true, if_true]
      exact hrun
    · rw [htr]
      simp [Serial_print, delay, tick, record]
    · simp [hact, List.replicate_succ]
    · rw [hclk]
      simp [Serial_print, delay, tick, record]
      omega

theorem setup_wifi_while_returned_status (env : Env) : ∀ (fuel : Nat) (w w2 : World),
    setup_wifi_while env fuel w = .returned w2 → env.wifiStatus w2.clock = .WL_CONNECTED := by
  intro fuel
  induction fuel with
  | zero =>
    intro w w2 h
    by_cases hc : env.wifiStatus w.clock = .WL_CONNECTED
    · simp [setup_wifi_while, WiFi_status, hc] at h
      rw [← h]; exact hc
    · simp [setup_wifi_while, WiFi_status, hc] at h
  | succ f ih =>
    intro w w2 h
    by_cases hc : env.wifiStatus w.clock = .WL_CONNECTED
    · simp [setup_wifi_while, WiFi_status, hc] at h
      rw [← h]; exact hc
    · simp only [setup_wifi_while, WiFi_status, ne_eq, hc, not_false_eq_true, if_true] at h
      exact ih _ _ h

/-- Claim C7: if `WiFi.status()` first reports `WL_CONNECTED` on poll number
`n + 1` (the polls of `setup_wifi` started in state `w` read the status at
yield counts `w.clock + 1`, `w.clock + 2`, ...), then `setup_wifi` returns as
soon as the loop may run `n` times, having performed `delay(10)`, one
`WiFi.begin(ssid, password)` and then exactly `n` times `delay(500)`, and the
status is `WL_CONNECTED` on return; while the loop has run fewer than `n`
times it is still polling (no timeout); and whenever `setup_wifi` returns, in
any outside world, the status is `WL_CONNECTED` (no failure return). -/
theorem setup_wifi_polls_until_connected (sec : Secrets) (env : Env) (w : World) (n : Nat)
    (hdown : ∀ j < n, env.wifiStatus (w.clock + 1 + j) ≠ .WL_CONNECTED)
    (hup : env.wifiStatus (w.clock + 1 + n) = .WL_CONNECTED) :
    (∀ fuel, n ≤ fuel → ∃ w2, setup_wifi sec env fuel w = .returned w2 ∧
      actions w2 = actions w ++ performed w w2 ∧
      performed w w2 =
        [.delay 10, .wifiBegin (ssid sec) (password sec)] ++ List.replicate n (.delay 500) ∧
      WiFi_status env w2 = .WL_CONNECTED) ∧
    (∀ fuel, fuel < n → ∃ w2, setup_wifi sec env fuel w = .blocked w2 ∧
      performed w w2 =
        [.delay 10, .wifiBegin (ssid sec) (password sec)] ++ List.replicate fuel (.delay 500)) ∧
    (∀ (sec2 : Secrets) (env2 : Env) (fuel : Nat) (w0 w2 : World),
      setup_wifi sec2 env2 fuel w0 = .returned w2 → WiFi_status env2 w2 = .WL_CONNECTED) := by
  refine ⟨?_, ?_, ?_⟩
  · intro fuel hle
    obtain ⟨w2, l, hrun, htr, hact, hclk⟩ := setup_wifi_while_returns env n fuel
      (WiFi_begin (ssid sec) (password sec) (Serial_println (ssid sec)
        (Serial_print "Connecting to " (Serial_println "" (delay env 10 w))))) hle
      (by simpa [WiFi_begin, Serial_println, Serial_print, delay, tick, record] using hdown)
      (by simpa [WiFi_begin, Serial_println, Serial_print, delay, tick, record] using hup)
    refine ⟨Serial_println (WiFi_localIP env) (Serial_println "IP address: "
      (Serial_println "WiFi connected" w2)), ?_, ?_, ?_, ?_⟩
    · simp only [setup_wifi, hrun, Run.map]
    · simp [performed, appended, actions, Serial_println, htr, WiFi_begin, Serial_print, delay,
        tick, record, hact]
    · simp [performed, appended, Serial_println, htr, WiFi_begin, Serial_print, delay, tick,
        record, hact]
    · simp [WiFi_status, Serial_println, hclk, WiFi_begin, Serial_print, delay, tick, record]
      simpa [Nat.add_assoc] using hup
  · intro fuel hlt
    obtain ⟨w2, l, hrun, htr, hact, hclk⟩ := setup_wifi_while_blocks env fuel
      (WiFi_begin (ssid sec) (password sec) (Serial_println (ssid sec)
        (Serial_print "Connecting to " (Serial_println "" (delay env 10 w)))))
      (by
        intro j hj
        simpa [WiFi_begin, Serial_println, Serial_print, delay, tick, record]
          using hdown j (by omega))
    refine ⟨w2, ?_, ?_⟩
    · simp only [setup_wifi, hrun, Run.map]
    · simp [performed, appended, htr, WiFi_begin, Serial_println, Serial_print, delay, tick,
        record, hact]
  · intro sec2 env2 fuel w0 w2 h
    simp only [setup_wifi] at h
    generalize hr : setup_wifi_while env2 fuel _ = r at h
    cases r with
    | returned w3 =>
      simp only [Run.map, Run.returned.injEq] at h
      have := setup_wifi_while_returned_status env2 _ _ _ hr
      rw [← h]
      simpa [WiFi_status, Serial_println] using this
    | blocked w3 => simp [Run.map] at h

theorem reconnect_of_connected (sec : Secrets) (env : Env) (fuel : Nat) (w : World)
    (h : w.session = true) : reconnect sec env fuel w = .returned w := by
  cases fuel <;> simp [reconnect, client_connected, h]

theorem reconnect_body_accepted (sec : Secrets) (env : Env) (w : World)
    (h : env.brokerAccepts w.attempts = true) :
    (reconnect_body sec env w).trace = w.trace ++ acceptedEvents sec env w ∧
    (reconnect_body sec env w).session = true ∧
    (reconnect_body sec env w).clock = w.clock ∧
    (reconnect_body sec env w).attempts = w.attempts + 1 ∧
    (reconnect_body sec env w).callbackSet = w.callbackSet ∧
    (reconnect_body sec env w).dispenseRequested = w.dispenseRequested := by
  simp [reconnect_body, client_connect, h, Serial_print, Serial_println, client_subscribe, record,
    acceptedEvents]

theorem reconnect_body_rejected (sec : Secrets) (env : Env) (w : World)
    (h : env.brokerAccepts w.attempts = false) :
    (reconnect_body sec env w).trace = w.trace ++ failedEvents sec env w ∧
    (reconnect_body sec env w).session = false ∧
    (reconnect_body sec env w).clock = w.clock + 1 ∧
    (reconnect_body sec env w).attempts = w.attempts + 1 ∧
    (reconnect_body sec env w).callbackSet = w.callbackSet ∧
    (reconnect_body sec env w).dispenseRequested = w.dispenseRequested := by
  simp [reconnect_body, client_connect, h, Serial_print, Serial_println, client_state, delay,
    tick, record, failedEvents]

theorem reconnect_returns (sec : Secrets) (env : Env) : ∀ (n fuel : Nat) (w : World),
    n < fuel → w.session = false →
    (∀ k < n, env.brokerAccepts (w.attempts + k) = false) →
    env.brokerAccepts (w.attempts + n) = true →
    ∃ w2 l, reconnect sec env fuel w = .returned w2 ∧ w2.trace = w.trace ++ l ∧
      l.map Event.act = failedAttempts sec env n ++ acceptedAttempt sec env ∧
      w2.session = true := by
  intro n
  induction n with
  | zero =>
    intro fuel w hlt hs _ hacc
    obtain ⟨f, rfl⟩ : ∃ f, fuel = f + 1 := ⟨fuel - 1, by omega⟩
    obtain ⟨htr, hses, -⟩ := reconnect_body_accepted sec env w (by simpa using hacc)
    refine ⟨reconnect_body sec env w, acceptedEvents sec env w, ?_, htr, ?_, hses⟩
    · simp only [reconnect, client_connected, hs, Bool.not_false, if_true]
      exact reconnect_of_connected sec env f _ hses
    · simp [failedAttempts, acceptedAttempt, acceptedEvents]
  | succ n ih =>
    intro fuel w hlt hs hrej hacc
    obtain ⟨f, rfl⟩ : ∃ f, fuel = f + 1 := ⟨fuel - 1, by omega⟩
    obtain ⟨htr, hses, -, hatt, -⟩ :=
      reconnect_body_rejected sec env w (by simpa using hrej 0 (by omega))
    obtain ⟨w2, l, hrun, htr2, hact, hs2⟩ := ih f (reconnect_body sec env w) (by omega) hses
      (by
        intro k hk
        rw [hatt, Nat.add_assoc, Nat.add_comm 1 k]
        exact hrej (k + 1) (by omega))
      (by rw [hatt, Nat.add_assoc, Nat.add_comm 1 n]; exact hacc)
    refine ⟨w2, failedEvents sec env w ++ l, ?_, ?_, ?_, hs2⟩
    · simp only [reconnect, client_connected, hs, Bool.not_false, if_true]
      exact hrun
    · rw [htr2, htr, List.append_assoc]
    · simp [hact, failedAttempts, failedAttempt, failedEvents]

theorem reconnect_blocks (sec : Secrets) (env : Env) : ∀ (fuel : Nat) (w : World),
    w.session = false → (∀ k < fuel, env.brokerAccepts (w.attempts + k) = false) →
    ∃ w2 l, reconnect sec env fuel w = .blocked w2 ∧ w2.trace = w.trace ++ l ∧
      l.map Event.act = failedAttempts sec env fuel := by
  intro fuel
  induction fuel with
  | zero =>
    intro w hs _
    exact ⟨w, [], by simp [reconnect, client_connected, hs], by simp, rfl⟩
  | succ f ih =>
    intro w hs hrej
    obtain ⟨htr, hses, -, hatt, -⟩ :=
      reconnect_body_rejected sec env w (by simpa using hrej 0 (by omega))
    obtain ⟨w2, l, hrun, htr2, hact⟩ := ih (reconnect_body sec env w) hses
      (by
        intro k hk
        rw [hatt, Nat.add_assoc, Nat.add_comm 1 k]
        exact hrej (k + 1) (by omega))
    refine ⟨w2, failedEvents sec env w ++ l, ?_, ?_, ?_⟩
    · simp only [reconnect, client_connected, hs, Bool.not_false, if_true]
      exact hrun
    · rw [htr2, htr, List.append_assoc]
    · simp [hact, failedAttempts, failedAttempt, failedEvents]

theorem totalDelay_failedAttempts (sec : Secrets) (env : Env) (n : Nat) (rest : List Action) :
    totalDelay (failedAttempts sec env n ++ rest) = 2000 * n + totalDelay rest := by
  induction n with
  | zero => simp [failedAttempts]
  | succ n ih =>
    show totalDelay (.connect _ _ _ false :: .delay 2000 :: (failedAttempts sec env n ++ rest)) = _
    simp only [totalDelay, ih]
    omega

theorem connectCalls_failedAttempts (sec : Secrets) (env : Env) (n : Nat) (rest : List Action) :
    connectCalls (failedAttempts sec env n ++ rest) = n + connectCalls rest := by
  induction n with
  | zero => simp [failedAttempts]
  | succ n ih =>
    show connectCalls (.connect _ _ _ false :: .delay 2000 :: (failedAttempts sec env n ++ rest)) = _
    simp only [connectCalls, ih]
    omega

/-- Claim C4: if the client is not connected and the broker rejects the next
`n` connection attempts and accepts the one after, then `reconnect` returns
(as soon as its loop may run `n + 1` times) after exactly `n + 1` `connect`
calls: `n` times a failed `connect` followed by `delay(2000)`, then one
successful `connect` followed by the subscribe and no delay; every `connect`
carries the same client identifier, user name and password; the delays add up
to `2000 * n` ms; the client is connected on return.  There is no bound on
`n`: with fewer than `n + 1` iterations allowed the loop is still retrying. -/
theorem reconnect_retries_until_accepted (sec : Secrets) (env : Env) (w : World) (n : Nat)
    (hs : client_connected w = false)
    (hrej : ∀ k < n, env.brokerAccepts (w.attempts + k) = false)
    (hacc : env.brokerAccepts (w.attempts + n) = true) :
    (∀ fuel, n < fuel → ∃ w2, reconnect sec env fuel w = .returned w2 ∧
      actions w2 = actions w ++ performed w w2 ∧
      performed w w2 = failedAttempts sec env n ++ acceptedAttempt sec env ∧
      connectCalls (performed w w2) = n + 1 ∧
      totalDelay (performed w w2) = 2000 * n ∧
      client_connected w2 = true) ∧
    (∀ fuel, fuel ≤ n → ∃ w2, reconnect sec env fuel w = .blocked w2 ∧
      performed w w2 = failedAttempts sec env fuel) := by
  constructor
  · intro fuel hlt
    obtain ⟨w2, l, hrun, htr, hact, hs2⟩ := reconnect_returns sec env n fuel w hlt hs hrej hacc
    have hp : performed w w2 = failedAttempts sec env n ++ acceptedAttempt sec env := by
      rw [performed_of_trace htr, hact]
    refine ⟨w2, hrun, actions_of_trace htr, hp, ?_, ?_, hs2⟩
    · rw [hp, connectCalls_failedAttempts]
      simp [acceptedAttempt, connectCalls]
    · rw [hp, totalDelay_failedAttempts]
      simp [acceptedAttempt, totalDelay]
  · intro fuel hle
    obtain ⟨w2, l, hrun, htr, hact⟩ := reconnect_blocks sec env fuel w hs
      (fun k hk => hrej k (by omega))
    exact ⟨w2, hrun, by rw [performed_of_trace htr, hact]⟩

theorem split_two {α : Type} {a b x : α} {rest pre post : List α}
    (h : a :: b :: rest = pre ++ x :: post) :
    (pre = [] ∧ x = a ∧ post = b :: rest) ∨ (pre = [a] ∧ x = b ∧ post = rest) ∨
      ∃ pre2, pre = a :: b :: pre2 ∧ rest = pre2 ++ x :: post := by
  cases pre with
  | nil =>
    simp only [List.nil_append, List.cons.injEq] at h
    exact Or.inl ⟨rfl, h.1.symm, h.2.symm⟩
  | cons p pre =>
    cases pre with
    | nil =>
      simp only [List.cons_append, List.nil_append, List.cons.injEq] at h
      exact Or.inr (Or.inl ⟨by rw [h.1], h.2.1.symm, h.2.2.symm⟩)
    | cons q pre =>
      simp only [List.cons_append, List.cons.injEq] at h
      exact Or.inr (Or.inr ⟨pre, by rw [h.1, h.2.1], h.2.2⟩)

theorem reconnect_shape (sec : Secrets) (env : Env) : ∀ (fuel : Nat) (w : World),
    ∃ n l, n ≤ fuel ∧ (reconnect sec env fuel w).world.trace = w.trace ++ l ∧
      (l.map Event.act = failedAttempts sec env n ∨
       l.map Event.act = failedAttempts sec env n ++ acceptedAttempt sec env) := by
  intro fuel
  induction fuel with
  | zero =>
    intro w
    refine ⟨0, [], Nat.le_refl _, ?_, Or.inl rfl⟩
    cases hs : w.session <;> simp [reconnect, client_connected, hs, Run.world]
  | succ f ih =>
    intro w
    cases hs : w.session with
    | true =>
      refine ⟨0, [], Nat.zero_le _, ?_, Or.inl rfl⟩
      simp [reconnect_of_connected sec env _ w hs, Run.world]
    | false =>
      have hstep : reconnect sec env (f + 1) w = reconnect sec env f (reconnect_body sec env w) := by
        simp [reconnect, client_connected, hs]
      cases hacc : env.brokerAccepts w.attempts with
      | true =>
        obtain ⟨htr, hses, -⟩ := reconnect_body_accepted sec env w hacc
        refine ⟨0, acceptedEvents sec env w, Nat.zero_le _, ?_, Or.inr ?_⟩
        · rw [hstep, reconnect_of_connected sec env f _ hses]
          exact htr
        · simp [failedAttempts, acceptedAttempt, acceptedEvents]
      | false =>
        obtain ⟨htr, -⟩ := reconnect_body_rejected sec env w hacc
        obtain ⟨n, l, hn, htr2, hact⟩ := ih (reconnect_body sec env w)
        refine ⟨n + 1, failedEvents sec env w ++ l, by omega, ?_, ?_⟩
        · rw [hstep, htr2, htr, List.append_assoc]
        · rcases hact with hact | hact
          · left; simp [hact, failedAttempts, failedAttempt, failedEvents]
          · right; simp [hact, failedAttempts, failedAttempt, failedEvents]

theorem shape_connect_true (sec : Secrets) (env : Env) : ∀ (n : Nat) (tail pre post : List Action)
    (id u p : String), (tail = [] ∨ tail = acceptedAttempt sec env) →
    failedAttempts sec env n ++ tail = pre ++ .connect id u p true :: post →
    post = [.subscribe "medbox/01/dispense"] := by
  intro n
  induction n with
  | zero =>
    intro tail pre post id u p ht h
    rcases ht with rfl | rfl
    · cases pre <;> simp [failedAttempts] at h
    · rcases split_two (show _ :: _ :: [] = _ from h) with ⟨-, -, h3⟩ | ⟨-, h2, -⟩ | ⟨pre2, -, h3⟩
      · exact h3
      · cases h2
      · cases pre2 <;> simp at h3
  | succ n ih =>
    intro tail pre post id u p ht h
    rcases split_two (show _ :: _ :: (failedAttempts sec env n ++ tail) = _ from h)
      with ⟨-, h2, -⟩ | ⟨-, h2, -⟩ | ⟨pre2, -, h3⟩
    · cases h2
    · cases h2
    · exact ih tail pre2 post id u p ht h3

theorem shape_connect_false (sec : Secrets) (env : Env) : ∀ (n : Nat) (tail pre post : List Action)
    (id u p : String), (tail = [] ∨ tail = acceptedAttempt sec env) →
    failedAttempts sec env n ++ tail = pre ++ .connect id u p false :: post →
    ∃ rest, post = .delay 2000 :: rest := by
  intro n
  induction n with
  | zero =>
    intro tail pre post id u p ht h
    rcases ht with rfl | rfl
    · cases pre <;> simp [failedAttempts] at h
    · rcases split_two (show _ :: _ :: [] = _ from h) with ⟨-, h2, -⟩ | ⟨-, h2, -⟩ | ⟨pre2, -, h3⟩
      · cases h2
      · cases h2
      · cases pre2 <;> simp at h3
  | succ n ih =>
    intro tail pre post id u p ht h
    rcases split_two (show _ :: _ :: (failedAttempts sec env n ++ tail) = _ from h)
      with ⟨-, -, h3⟩ | ⟨-, h2, -⟩ | ⟨pre2, -, h3⟩
    · exact ⟨_, h3⟩
    · cases h2
    · exact ih tail pre2 post id u p ht h3

theorem shape_subscribe (sec : Secrets) (env : Env) : ∀ (n : Nat) (tail pre post : List Action)
    (t : String), (tail = [] ∨ tail = acceptedAttempt sec env) →
    failedAttempts sec env n ++ tail = pre ++ .subscribe t :: post →
    t = "medbox/01/dispense" ∧ post = [] ∧
      ∃ pre2 id u p, pre = pre2 ++ [.connect id u p true] := by
  intro n
  induction n with
  | zero =>
    intro tail pre post t ht h
    rcases ht with rfl | rfl
    · cases pre <;> simp [failedAttempts] at h
    · rcases split_two (show _ :: _ :: [] = _ from h) with ⟨-, h2, -⟩ | ⟨h1, h2, h3⟩ | ⟨pre2, -, h3⟩
      · cases h2
      · cases h2
        exact ⟨rfl, h3, [], _, _, _, by rw [h1]; rfl⟩
      · cases pre2 <;> simp at h3
  | succ n ih =>
    intro tail pre post t ht h
    rcases split_two (show _ :: _ :: (failedAttempts sec env n ++ tail) = _ from h)
      with ⟨-, h2, -⟩ | ⟨-, h2, -⟩ | ⟨pre2, h1, h3⟩
    · cases h2
    · cases h2
    · obtain ⟨ht2, hp, pre3, id, u, p, hpre⟩ := ih tail pre2 post t ht h3
      exact ⟨ht2, hp, _ :: _ :: pre3, id, u, p, by rw [h1, hpre]; rfl⟩

theorem client_loop_trace (env : Env) (w : World) :
    ∃ cb, (client_loop env w).trace =
        w.trace ++ { act := .poll, clock := w.clock, session := w.session } :: cb ∧
      (cb = [] ∨ (w.session = true ∧ cb =
        [{ act := .delay 3000, clock := w.clock, session := true },
         { act := .publish "medbox/01/dispensed" "true", clock := w.clock + 1,
           session := env.sessionSurvives w.clock }])) := by
  unfold client_loop
  cases hs : w.session with
  | false => exact ⟨[], by simp [client_connected, record, tick, hs], Or.inl rfl⟩
  | true =>
    cases hm : env.inbox w.clock with
    | none => exact ⟨[], by simp [client_connected, record, tick, hs, hm], Or.inl rfl⟩
    | some m =>
      cases hc : w.callbackSet with
      | false => exact ⟨[], by simp [client_connected, record, tick, hs, hm, hc], Or.inl rfl⟩
      | true =>
        by_cases ht : m.topic = "medbox/01/dispense"
        · refine ⟨_, ?_, Or.inr ⟨rfl, rfl⟩⟩
          simp [client_connected, record, tick, hs, hm, hc, ht, callback_dispense]
        · refine ⟨[], ?_, Or.inl rfl⟩
          simp [client_connected, record, tick, hs, hm, hc, callback_other _ _ _ _ ht]

theorem mem_failedAttempts (sec : Secrets) (env : Env) (a : Action) : ∀ n : Nat,
    a ∈ failedAttempts sec env n →
    a = .connect (client_id (WiFi_macAddress env)) (mqtt_username sec) (mqtt_password sec) false ∨
      a = .delay 2000 := by
  intro n
  induction n with
  | zero => intro h; simp [failedAttempts] at h
  | succ n ih =>
    intro h
    simp only [failedAttempts, failedAttempt, List.cons_append, List.nil_append, List.mem_cons] at h
    rcases h with h | h | h
    · exact Or.inl h
    · exact Or.inr h
    · exact ih h

theorem mem_shape (sec : Secrets) (env : Env) (a : Action) (n : Nat) (tail : List Action)
    (ht : tail = [] ∨ tail = acceptedAttempt sec env) (h : a ∈ failedAttempts sec env n ++ tail) :
    (∃ ok, a = .connect (client_id (WiFi_macAddress env)) (mqtt_username sec)
        (mqtt_password sec) ok) ∨ a = .delay 2000 ∨ a = .subscribe "medbox/01/dispense" := by
  rcases List.mem_append.1 h with h | h
  · rcases mem_failedAttempts sec env a n h with h | h
    · exact Or.inl ⟨false, h⟩
    · exact Or.inr (Or.inl h)
  · rcases ht with rfl | rfl
    · simp at h
    · simp only [acceptedAttempt, List.mem_cons, List.mem_singleton, List.not_mem_nil,
        or_false] at h
      rcases h with h | h
      · exact Or.inl ⟨true, h⟩
      · exact Or.inr (Or.inr h)

theorem loop_performed (sec : Secrets) (env : Env) (fuel : Nat) (w w2 : World)
    (h : loop sec env fuel w = .returned w2) :
    ∃ n tail cb, (tail = [] ∨ tail = acceptedAttempt sec env) ∧
      performed w w2 = (failedAttempts sec env n ++ tail) ++ .poll :: cb ∧
      (cb = [] ∨ cb = [.delay 3000, .publish "medbox/01/dispensed" "true"]) := by
  unfold loop at h
  cases hs : w.session with
  | true =>
    simp only [client_connected, hs, Bool.not_true, Bool.false_eq_true, if_false, Run.map,
      Run.returned.injEq] at h
    obtain ⟨cb, htr, hcb⟩ := client_loop_trace env w
    refine ⟨0, [], cb.map Event.act, Or.inl rfl, ?_, ?_⟩
    · rw [← h, performed_of_trace htr]
      simp [failedAttempts]
    · rcases hcb with rfl | ⟨-, rfl⟩
      · exact Or.inl rfl
      · exact Or.inr rfl
  | false =>
    simp only [client_connected, hs, Bool.not_false, if_true] at h
    obtain ⟨n, l, -, htr, hact⟩ := reconnect_shape sec env fuel w
    cases hr : reconnect sec env fuel w with
    | blocked w1 => simp [hr, Run.map] at h
    | returned w1 =>
      rw [hr] at h htr
      simp only [Run.map, Run.returned.injEq] at h
      simp only [Run.world] at htr
      obtain ⟨cb, htr2, hcb⟩ := client_loop_trace env w1
      have hp : performed w w2 = l.map Event.act ++ .poll :: cb.map Event.act := by
        have htr3 : (client_loop env w1).trace = w.trace ++
            (l ++ { act := .poll, clock := w1.clock, session := w1.session } :: cb) := by
          rw [htr2, htr, List.append_assoc]
        rw [← h, performed_of_trace htr3]
        simp
      have hcb2 : cb.map Event.act = [] ∨
          cb.map Event.act = [.delay 3000, .publish "medbox/01/dispensed" "true"] := by
        rcases hcb with rfl | ⟨-, rfl⟩
        · exact Or.inl rfl
        · exact Or.inr rfl
      rcases hact with hact | hact
      · exact ⟨n, [], _, Or.inl rfl, by rw [hp, hact, List.append_nil], hcb2⟩
      · exact ⟨n, _, _, Or.inr rfl, by rw [hp, hact], hcb2⟩

/-- Claim C3: in every execution of `reconnect` (any outside world, any
starting state, any number of iterations), a successful `connect` is
immediately followed by `subscribe("medbox/01/dispense")` and by nothing
else, a failed `connect` is immediately followed by `delay(2000)` (not by a
subscribe), and every subscribe is the call right after a successful
`connect`; and in an iteration of `loop()` every subscribe comes before the
`client.loop()` call of that iteration, never after it. -/
theorem reconnect_subscribes_after_connect (sec : Secrets) (env : Env) (fuel : Nat)
    (w : World) :
    actions (reconnect sec env fuel w).world =
      actions w ++ performed w (reconnect sec env fuel w).world ∧
    (∀ pre post id u p,
      performed w (reconnect sec env fuel w).world = pre ++ .connect id u p true :: post →
      post = [.subscribe "medbox/01/dispense"]) ∧
    (∀ pre post id u p,
      performed w (reconnect sec env fuel w).world = pre ++ .connect id u p false :: post →
      ∃ rest, post = .delay 2000 :: rest) ∧
    (∀ pre post t,
      performed w (reconnect sec env fuel w).world = pre ++ .subscribe t :: post →
      t = "medbox/01/dispense" ∧ ∃ pre2 id u p, pre = pre2 ++ [.connect id u p true]) ∧
    (∀ w2, loop sec env fuel w = .returned w2 → ∀ pre post t,
      performed w w2 = pre ++ .subscribe t :: post → .poll ∈ post ∧ .poll ∉ pre) := by
  obtain ⟨n, l, -, htr, hact⟩ := reconnect_shape sec env fuel w
  have hshape : ∃ tail, (tail = [] ∨ tail = acceptedAttempt sec env) ∧
      performed w (reconnect sec env fuel w).world = failedAttempts sec env n ++ tail := by
    rcases hact with hact | hact
    · exact ⟨[], Or.inl rfl, by rw [performed_of_trace htr, hact, List.append_nil]⟩
    · exact ⟨_, Or.inr rfl, by rw [performed_of_trace htr, hact]⟩
  obtain ⟨tail, ht, hp⟩ := hshape
  refine ⟨actions_of_trace htr, ?_, ?_, ?_, ?_⟩
  · intro pre post id u p h
    exact shape_connect_true sec env n tail pre post id u p ht (hp ▸ h)
  · intro pre post id u p h
    exact shape_connect_false sec env n tail pre post id u p ht (hp ▸ h)
  · intro pre post t h
    obtain ⟨h1, -, h3⟩ := shape_subscribe sec env n tail pre post t ht (hp ▸ h)
    exact ⟨h1, h3⟩
  · intro w2 hloop pre post t h
    obtain ⟨m, tl, cb, htl, hperf, hcb⟩ := loop_performed sec env fuel w w2 hloop
    rw [hperf] at h
    rcases List.append_eq_append_iff.1 h with ⟨a2, hpre, hrest⟩ | ⟨c2, hr, hrest⟩
    · exfalso
      cases a2 with
      | nil => simp at hrest
      | cons x a2 =>
        simp only [List.cons_append, List.cons.injEq] at hrest
        rcases hcb with rfl | rfl
        · cases a2 <;> simp at hrest
        · have hmem : Action.subscribe t ∈
              [Action.delay 3000, Action.publish "medbox/01/dispensed" "true"] := by
            rw [hrest.2]; simp
          simp at hmem
    · cases c2 with
      | nil => simp at hrest
      | cons x c2 =>
        simp only [List.cons_append, List.cons.injEq] at hrest
        refine ⟨by rw [hrest.2]; simp, ?_⟩
        intro hmem
        have : Action.poll ∈ failedAttempts sec env m ++ tl := by
          rw [hr]; exact List.mem_append_left _ hmem
        rcases mem_shape sec env _ m tl htl this with ⟨ok, h1⟩ | h1 | h1 <;> cases h1

theorem allOk_append (env : Env) {w w2 : World} {l : List Event} (htr : w2.trace = w.trace ++ l)
    (hw : AllOk env w) (hl : ∀ e ∈ l, EventOk env e) : AllOk env w2 := by
  intro e he
  rw [htr] at he
  rcases List.mem_append.1 he with h | h
  · exact hw e h
  · exact hl e h

theorem setup_wifi_while_allOk (env : Env) : ∀ (fuel : Nat) (w : World),
    AllOk env w → AllOk env (setup_wifi_while env fuel w).world := by
  intro fuel
  induction fuel with
  | zero =>
    intro w hw
    by_cases hc : env.wifiStatus w.clock = .WL_CONNECTED <;>
      simpa [setup_wifi_while, WiFi_status, hc, Run.world] using hw
  | succ f ih =>
    intro w hw
    by_cases hc : env.wifiStatus w.clock = .WL_CONNECTED
    · simpa [setup_wifi_while, WiFi_status, hc, Run.world] using hw
    · simp only [setup_wifi_while, WiFi_status, ne_eq, hc, not_false_eq_true, if_true]
      apply ih
      have htr : (Serial_print "." (delay env 500 w)).trace = w.trace ++
          [{ act := .delay 500, clock := w.clock, session := w.session }] := by
        simp [Serial_print, delay, tick, record]
      refine allOk_append env htr hw ?_
      · intro e he
        simp only [List.mem_singleton] at he
        subst he
        simp [EventOk, Action.isSubscribe, Action.isPublish]

theorem setup_allOk (sec : Secrets) (env : Env) (fuel : Nat) :
    AllOk env (setup sec env fuel World.init).world := by
  have h1 : AllOk env (WiFi_begin (ssid sec) (password sec) (Serial_println (ssid sec)
      (Serial_print "Connecting to " (Serial_println "" (delay env 10
        (Serial_begin 115200 World.init)))))) := by
    intro e he
    simp [WiFi_begin, Serial_println, Serial_print, delay, tick, record, Serial_begin,
      World.init] at he
    rcases he with rfl | rfl | rfl <;> simp [EventOk, Action.isSubscribe, Action.isPublish]
  have h2 := setup_wifi_while_allOk env fuel _ h1
  simp only [setup, setup_wifi]
  generalize setup_wifi_while env fuel _ = r at h2
  cases r with
  | blocked w1 => simpa [Run.map, Run.world] using h2
  | returned w1 =>
    simp only [Run.world] at h2
    simp only [Run.map, Run.world]
    have htr : (client_setCallback (client_setServer mqtt_server 1883
        (Serial_println (WiFi_localIP env) (Serial_println "IP address: "
          (Serial_println "WiFi connected" w1))))).trace = w1.trace ++
        [{ act := .setServer mqtt_server 1883, clock := w1.clock, session := w1.session },
         { act := .setCallback, clock := w1.clock, session := w1.session }] := by
      simp [client_setCallback, client_setServer, record, Serial_println]
    refine allOk_append env htr h2 ?_
    · intro e he
      simp only [List.mem_cons, List.mem_singleton, List.not_mem_nil, or_false] at he
      rcases he with rfl | rfl <;> simp [EventOk, Action.isSubscribe, Action.isPublish]

theorem reconnect_allOk (sec : Secrets) (env : Env) : ∀ (fuel : Nat) (w : World),
    AllOk env w → AllOk env (reconnect sec env fuel w).world := by
  intro fuel
  induction fuel with
  | zero =>
    intro w hw
    cases hs : w.session <;> simpa [reconnect, client_connected, hs, Run.world] using hw
  | succ f ih =>
    intro w hw
    cases hs : w.session with
    | true => simpa [reconnect, client_connected, hs, Run.world] using hw
    | false =>
      simp only [reconnect, client_connected, hs, Bool.not_false, if_true]
      apply ih
      cases hacc : env.brokerAccepts w.attempts with
      | true =>
        refine allOk_append env (reconnect_body_accepted sec env w hacc).1 hw ?_
        intro e he
        simp only [acceptedEvents, List.mem_cons, List.mem_singleton, List.not_mem_nil,
          or_false] at he
        rcases he with rfl | rfl <;> simp [EventOk, Action.isSubscribe, Action.isPublish]
      | false =>
        refine allOk_append env (reconnect_body_rejected sec env w hacc).1 hw ?_
        intro e he
        simp only [failedEvents, List.mem_cons, List.mem_singleton, List.not_mem_nil,
          or_false] at he
        rcases he with rfl | rfl <;> simp [EventOk, Action.isSubscribe, Action.isPublish]

theorem reconnect_returned_connected (sec : Secrets) (env : Env) : ∀ (fuel : Nat) (w w2 : World),
    reconnect sec env fuel w = .returned w2 → w2.session = true := by
  intro fuel
  induction fuel with
  | zero =>
    intro w w2 h
    cases hs : w.session with
    | true =>
      simp [reconnect, client_connected, hs] at h
      rw [← h]; exact hs
    | false => simp [reconnect, client_connected, hs] at h
  | succ f ih =>
    intro w w2 h
    cases hs : w.session with
    | true =>
      simp [reconnect, client_connected, hs] at h
      rw [← h]; exact hs
    | false =>
      simp only [reconnect, client_connected, hs, Bool.not_false, if_true] at h
      exact ih _ _ h

theorem client_loop_allOk (env : Env) (w : World) (hw : AllOk env w) :
    AllOk env (client_loop env w) := by
  obtain ⟨cb, htr, hcb⟩ := client_loop_trace env w
  refine allOk_append env htr hw ?_
  intro e he
  rcases hcb with rfl | ⟨-, rfl⟩
  · simp only [List.mem_singleton] at he
    subst he
    simp [EventOk, Action.isSubscribe, Action.isPublish]
  · simp only [List.mem_cons, List.mem_singleton, List.not_mem_nil, or_false] at he
    rcases he with rfl | rfl | rfl <;> simp [EventOk, Action.isSubscribe, Action.isPublish]

theorem loop_allOk (sec : Secrets) (env : Env) (fuel : Nat) (w : World) (hw : AllOk env w) :
    AllOk env (loop sec env fuel w).world := by
  unfold loop
  cases hs : w.session with
  | true =>
    simpa [client_connected, hs, Run.map, Run.world] using client_loop_allOk env w hw
  | false =>
    have h := reconnect_allOk sec env fuel w hw
    simp only [client_connected, hs, Bool.not_false, if_true]
    cases hr : reconnect sec env fuel w with
    | blocked w1 =>
      rw [hr] at h
      simpa [Run.map, Run.world] using h
    | returned w1 =>
      rw [hr] at h
      simpa [Run.map, Run.world] using client_loop_allOk env w1 h

theorem iterate_allOk (sec : Secrets) (env : Env) (fuel : Nat) : ∀ (iters : Nat) (w : World),
    AllOk env w → AllOk env (iterate sec env fuel iters w).world := by
  intro iters
  induction iters with
  | zero => intro w hw; simpa [iterate, Run.world] using hw
  | succ k ih =>
    intro w hw
    have h := loop_allOk sec env fuel w hw
    simp only [iterate]
    cases hr : loop sec env fuel w with
    | blocked w1 =>
      rw [hr] at h
      simpa [Run.bind, Run.world] using h
    | returned w1 =>
      rw [hr] at h
      simpa [Run.bind] using ih w1 h

theorem program_allOk (sec : Secrets) (env : Env) (fuel iters : Nat) :
    AllOk env (program sec env fuel iters).world := by
  have h := setup_allOk sec env fuel
  unfold program
  cases hr : setup sec env fuel World.init with
  | blocked w1 =>
    rw [hr] at h
    simpa [Run.bind, Run.world] using h
  | returned w1 =>
    rw [hr] at h
    simpa [Run.bind] using iterate_allOk sec env fuel iters w1 h

/-- Claim C6, counterexample: in the outside world `sessionLostEnv` (a dispense
request is pending at the first `client.loop()`, and the broker session is
lost during the 3000 ms delay of `callback`) the program records the calls
listed here; the last one, the publish of `callback`, is made while
`client.connected()` is false. -/
theorem publish_after_session_lost :
    (program sampleSecrets sessionLostEnv 1 1).world.trace =
      [ { act := .serialBegin 115200, clock := 0, session := false },
        { act := .delay 10, clock := 0, session := false },
        { act := .wifiBegin "home" "wifipass", clock := 1, session := false },
        { act := .setServer "192.168.0.210" 1883, clock := 1, session := false },
        { act := .setCallback, clock := 1, session := false },
        { act := .connect "esp32-client-24:6F:28:00:00:01" "medbox" "mqttpass" true,
          clock := 1, session := false },
        { act := .subscribe "medbox/01/dispense", clock := 1, session := true },
        { act := .poll, clock := 1, session := true },
        { act := .delay 3000, clock := 1, session := true },
        { act := .publish "medbox/01/dispensed" "true", clock := 2, session := false } ] ∧
    ¬ ∀ e ∈ (program sampleSecrets sessionLostEnv 1 1).world.trace,
        (e.act.isSubscribe = true ∨ e.act.isPublish = true) → e.session = true := by
  decide

/-- Claim C6, amended: in every execution of `setup` followed by iterations of
`loop`, every `subscribe` is made while `client.connected()` is true, the
dispense branch of `callback` is entered (its `delay(3000)`) while
`client.connected()` is true, and at the `publish` that follows
`client.connected()` is true exactly when the session survived that yield
point; and `reconnect` returns only in a state where `client.connected()` is
true. -/
theorem session_active_when_subscribing (sec : Secrets) (env : Env) (fuel iters : Nat) :
    (∀ e ∈ (program sec env fuel iters).world.trace,
      (e.act.isSubscribe = true → e.session = true) ∧
      (e.act = .delay 3000 → e.session = true) ∧
      (e.act.isPublish = true → e.session = env.sessionSurvives (e.clock - 1))) ∧
    (∀ (f : Nat) (w w2 : World), reconnect sec env f w = .returned w2 →
      client_connected w2 = true) :=
  ⟨program_allOk sec env fuel iters, reconnect_returned_connected sec env⟩

theorem callback_setFlag (env : Env) (topic : String) (message : List (Fin 256)) (b : Bool)
    (w : World) :
    callback env topic message (setFlag b w) = setFlag b (callback env topic message w) := by
  by_cases h : topic = "medbox/01/dispense"
  · subst h
    simp only [callback_dispense]
    rfl
  · simp only [callback_other env topic message _ h]
    rfl

theorem setup_wifi_while_setFlag (env : Env) (b : Bool) : ∀ (fuel : Nat) (w : World),
    setup_wifi_while env fuel (setFlag b w) = (setup_wifi_while env fuel w).withFlag b := by
  intro fuel
  induction fuel with
  | zero =>
    intro w
    have hclk : (setFlag b w).clock = w.clock := rfl
    by_cases hc : env.wifiStatus w.clock = .WL_CONNECTED <;>
      simp [setup_wifi_while, WiFi_status, hclk, hc, Run.withFlag]
  | succ f ih =>
    intro w
    have hclk : (setFlag b w).clock = w.clock := rfl
    by_cases hc : env.wifiStatus w.clock = .WL_CONNECTED
    · simp [setup_wifi_while, WiFi_status, hclk, hc, Run.withFlag]
    · simp only [setup_wifi_while, WiFi_status, hclk, ne_eq, hc, not_false_eq_true, if_true]
      exact ih (Serial_print "." (delay env 500 w))

theorem withFlag_map (b : Bool) (f : World → World) (r : Run)
    (hf : ∀ v, f (setFlag b v) = setFlag b (f v)) :
    (r.withFlag b).map f = (r.map f).withFlag b := by
  cases r with
  | returned v => simp [Run.withFlag, Run.map, hf]
  | blocked v => rfl

theorem setup_wifi_setFlag (sec : Secrets) (env : Env) (b : Bool) (fuel : Nat) (w : World) :
    setup_wifi sec env fuel (setFlag b w) = (setup_wifi sec env fuel w).withFlag b := by
  have h := setup_wifi_while_setFlag env b fuel (WiFi_begin (ssid sec) (password sec)
    (Serial_println (ssid sec) (Serial_print "Connecting to " (Serial_println ""
      (delay env 10 w)))))
  simp only [setup_wifi]
  exact (congrArg (Run.map fun v => Serial_println (WiFi_localIP env)
    (Serial_println "IP address: " (Serial_println "WiFi connected" v))) h).trans
      (withFlag_map b _ _ (fun _ => rfl))

theorem setup_setFlag (sec : Secrets) (env : Env) (b : Bool) (fuel : Nat) (w : World) :
    setup sec env fuel (setFlag b w) = (setup sec env fuel w).withFlag b := by
  have h := setup_wifi_setFlag sec env b fuel (Serial_begin 115200 w)
  simp only [setup]
  exact (congrArg (Run.map fun v => client_setCallback (client_setServer mqtt_server 1883 v))
    h).trans (withFlag_map b _ _ (fun _ => rfl))

theorem reconnect_body_setFlag (sec : Secrets) (env : Env) (b : Bool) (w : World) :
    reconnect_body sec env (setFlag b w) = setFlag b (reconnect_body sec env w) := by
  cases hacc : env.brokerAccepts w.attempts <;>
    simp [reconnect_body, client_connect, setFlag, hacc, Serial_print, Serial_println,
      client_subscribe, client_state, delay, tick, record]

theorem reconnect_setFlag (sec : Secrets) (env : Env) (b : Bool) : ∀ (fuel : Nat) (w : World),
    reconnect sec env fuel (setFlag b w) = (reconnect sec env fuel w).withFlag b := by
  intro fuel
  induction fuel with
  | zero =>
    intro w
    have hs2 : (setFlag b w).session = w.session := rfl
    cases hs : w.session <;> simp [reconnect, client_connected, hs2, hs, Run.withFlag]
  | succ f ih =>
    intro w
    have hs2 : (setFlag b w).session = w.session := rfl
    cases hs : w.session with
    | true => simp [reconnect, client_connected, hs2, hs, Run.withFlag]
    | false =>
      simp only [reconnect, client_connected, hs, hs2, Bool.not_false, if_true]
      rw [reconnect_body_setFlag]
      exact ih _

theorem client_loop_setFlag (env : Env) (b : Bool) (w : World) :
    client_loop env (setFlag b w) = setFlag b (client_loop env w) := by
  have hrec : record .poll (setFlag b w) = setFlag b (record .poll w) := rfl
  have hclk : (setFlag b (record .poll w)).clock = (record .poll w).clock := rfl
  have hcs : (setFlag b (record .poll w)).callbackSet = (record .poll w).callbackSet := rfl
  have hses : client_connected (setFlag b (record .poll w)) = client_connected (record .poll w) :=
    rfl
  unfold client_loop
  simp only [hrec, hclk, hcs, hses]
  cases client_connected (record .poll w) with
  | false => rfl
  | true =>
    simp only [if_true]
    cases env.inbox (record .poll w).clock with
    | none => rfl
    | some m =>
      cases (record .poll w).callbackSet with
      | false => rfl
      | true =>
        simp only [if_true, callback_setFlag]
        rfl

theorem loop_setFlag (sec : Secrets) (env : Env) (b : Bool) (fuel : Nat) (w : World) :
    loop sec env fuel (setFlag b w) = (loop sec env fuel w).withFlag b := by
  have hs2 : client_connected (setFlag b w) = client_connected w := rfl
  simp only [loop, hs2]
  rw [← withFlag_map b _ _ (client_loop_setFlag env b)]
  cases client_connected w with
  | true => rfl
  | false =>
    simp only [Bool.not_false, if_true]
    rw [reconnect_setFlag]

theorem withFlag_world (b : Bool) (r : Run) :
    (r.withFlag b).world.trace = r.world.trace ∧
    (r.withFlag b).world.serial = r.world.serial := by
  cases r <;> exact ⟨rfl, rfl⟩

/-- Claim C10: `dispenseRequested` is never read and never written by
`callback`, `setup_wifi`, `reconnect`, `setup` and `loop`: running any of them
from the state `w` with the flag forced to `b` gives the outcome of running
it from `w`, with the flag forced to `b`; in particular the recorded platform
calls are the same whichever value the flag holds. -/
theorem dispenseRequested_never_read (sec : Secrets) (env : Env) (b : Bool) (fuel : Nat)
    (topic : String) (message : List (Fin 256)) (w : World) :
    callback env topic message (setFlag b w) = setFlag b (callback env topic message w) ∧
    setup_wifi sec env fuel (setFlag b w) = (setup_wifi sec env fuel w).withFlag b ∧
    reconnect sec env fuel (setFlag b w) = (reconnect sec env fuel w).withFlag b ∧
    setup sec env fuel (setFlag b w) = (setup sec env fuel w).withFlag b ∧
    loop sec env fuel (setFlag b w) = (loop sec env fuel w).withFlag b ∧
    (callback env topic message (setFlag b w)).trace = (callback env topic message w).trace ∧
    (setup_wifi sec env fuel (setFlag b w)).world.trace = (setup_wifi sec env fuel w).world.trace ∧
    (reconnect sec env fuel (setFlag b w)).world.trace = (reconnect sec env fuel w).world.trace ∧
    (setup sec env fuel (setFlag b w)).world.trace = (setup sec env fuel w).world.trace ∧
    (loop sec env fuel (setFlag b w)).world.trace = (loop sec env fuel w).world.trace := by
  refine ⟨callback_setFlag env topic message b w, setup_wifi_setFlag sec env b fuel w,
    reconnect_setFlag sec env b fuel w, setup_setFlag sec env b fuel w,
    loop_setFlag sec env b fuel w, ?_, ?_, ?_, ?_, ?_⟩
  · rw [callback_setFlag]; rfl
  · rw [setup_wifi_setFlag]; exact (withFlag_world b _).1
  · rw [reconnect_setFlag]; exact (withFlag_world b _).1
  · rw [setup_setFlag]; exact (withFlag_world b _).1
  · rw [loop_setFlag]; exact (withFlag_world b _).1

theorem reconnect_wifi_independent (sec : Secrets) (env : Env) (status : Nat → wl_status_t) :
    ∀ (fuel : Nat) (w : World),
    reconnect sec { env with wifiStatus := status } fuel w = reconnect sec env fuel w := by
  intro fuel
  induction fuel with
  | zero => intro w; rfl
  | succ f ih =>
    intro w
    cases hs : w.session with
    | true => simp [reconnect, client_connected, hs]
    | false =>
      simp only [reconnect, client_connected, hs, Bool.not_false, if_true]
      rw [show reconnect_body sec { env with wifiStatus := status } w = reconnect_body sec env w
        from rfl]
      exact ih _

theorem loop_wifi_independent (sec : Secrets) (env : Env) (status : Nat → wl_status_t)
    (fuel : Nat) (w : World) :
    loop sec { env with wifiStatus := status } fuel w = loop sec env fuel w := by
  simp only [loop, reconnect_wifi_independent]
  rfl

/-- Claim C5, counterexample: in the outside world `wifiLostEnv` (network up
at the first poll of `setup_wifi`, lost from the next yield point on, broker
never reached) the program performs the calls listed here: the second
`connect` is made at yield count 2, when `WiFi.status()` is not
`WL_CONNECTED`, and after `setup` no call polls the network again. -/
theorem connect_attempted_without_wifi :
    actions (program sampleSecrets wifiLostEnv 2 1).world =
      [ .serialBegin 115200, .delay 10, .wifiBegin "home" "wifipass",
        .setServer "192.168.0.210" 1883, .setCallback,
        .connect "esp32-client-24:6F:28:00:00:01" "medbox" "mqttpass" false, .delay 2000,
        .connect "esp32-client-24:6F:28:00:00:01" "medbox" "mqttpass" false, .delay 2000 ] ∧
    ¬ ∀ e ∈ (program sampleSecrets wifiLostEnv 2 1).world.trace,
        e.act.isConnect = true → wifiLostEnv.wifiStatus e.clock = .WL_CONNECTED := by
  decide

/-- Claim C5, amended: from power-up, as long as `WiFi.status()` has not
reported `WL_CONNECTED` (here: at none of the first `fuel + 1` polls), the
program is still inside `setup_wifi`, it has performed `Serial.begin`,
`delay(10)`, `WiFi.begin` and then only `delay(500)` calls, one per failed
poll, and no `connect`; and `loop()` does not consult the network status: its
outcome is the same whatever `WiFi.status()` would report. -/
theorem no_connect_before_wifi_up (sec : Secrets) (env : Env) (fuel iters : Nat)
    (hdown : ∀ j ≤ fuel, env.wifiStatus (1 + j) ≠ .WL_CONNECTED) :
    (∃ w, program sec env fuel iters = .blocked w ∧
      actions w = [.serialBegin 115200, .delay 10, .wifiBegin (ssid sec) (password sec)] ++
        List.replicate fuel (.delay 500) ∧
      connectCalls (actions w) = 0) ∧
    (∀ (status : Nat → wl_status_t) (f : Nat) (w : World),
      loop sec { env with wifiStatus := status } f w = loop sec env f w) := by
  refine ⟨?_, fun status f w => loop_wifi_independent sec env status f w⟩
  obtain ⟨w2, l, hrun, htr, hact, -⟩ := setup_wifi_while_blocks env fuel
    (WiFi_begin (ssid sec) (password sec) (Serial_println (ssid sec)
      (Serial_print "Connecting to " (Serial_println "" (delay env 10
        (Serial_begin 115200 World.init))))))
    (by
      intro j hj
      have := hdown j hj
      simpa [WiFi_begin, Serial_println, Serial_print, delay, tick, record, Serial_begin,
        World.init, Nat.add_comm] using this)
  have hacts : actions w2 =
      [.serialBegin 115200, .delay 10, .wifiBegin (ssid sec) (password sec)] ++
        List.replicate fuel (.delay 500) := by
    simp [actions, htr, hact, WiFi_begin, Serial_println, Serial_print, delay, tick, record,
      Serial_begin, World.init]
  refine ⟨w2, ?_, hacts, ?_⟩
  · simp only [program, setup, setup_wifi, hrun, Run.map, Run.bind]
  · rw [hacts]
    have hrep : ∀ k : Nat, connectCalls (List.replicate k (Action.delay 500)) = 0 := by
      intro k
      induction k with
      | zero => rfl
      | succ k ih => simpa [List.replicate_succ, connectCalls] using ih
    simpa [connectCalls] using hrep fuel

/-- Claim C8: every `connect` performed by `reconnect` carries the client
identifier "esp32-client-" followed by the address returned by
`WiFi.macAddress()` (and the fixed user name and password), whatever the
state, the secrets and the rest of the outside world; when the client is not
connected the first call of `reconnect` is such a `connect`; the identifier
starts with "esp32-client-" and has length 13 plus the length of the
address. -/
theorem reconnect_client_identifier (sec : Secrets) (env : Env) (fuel : Nat) (w : World) :
    (∀ id u p ok, .connect id u p ok ∈ performed w (reconnect sec env fuel w).world →
      id = "esp32-client-" ++ WiFi_macAddress env ∧ u = mqtt_username sec ∧
        p = mqtt_password sec) ∧
    (client_connected w = false → ∃ rest,
      performed w (reconnect sec env (fuel + 1) w).world =
        .connect ("esp32-client-" ++ WiFi_macAddress env) (mqtt_username sec) (mqtt_password sec)
          (env.brokerAccepts w.attempts) :: rest) ∧
    ("esp32-client-" ++ WiFi_macAddress env).length = 13 + (WiFi_macAddress env).length ∧
    "esp32-client-".data <+: ("esp32-client-" ++ WiFi_macAddress env).data := by
  refine ⟨?_, ?_, ?_, ?_⟩
  · intro id u p ok hmem
    obtain ⟨n, l, -, htr, hact⟩ := reconnect_shape sec env fuel w
    rw [performed_of_trace htr] at hmem
    have hcases : (∃ ok2, Action.connect id u p ok = .connect (client_id (WiFi_macAddress env))
        (mqtt_username sec) (mqtt_password sec) ok2) ∨ Action.connect id u p ok = .delay 2000 ∨
        Action.connect id u p ok = .subscribe "medbox/01/dispense" := by
      rcases hact with hact | hact
      · exact mem_shape sec env _ n [] (Or.inl rfl) (by rw [List.append_nil, ← hact]; exact hmem)
      · exact mem_shape sec env _ n _ (Or.inr rfl) (by rw [← hact]; exact hmem)
    rcases hcases with ⟨ok2, h⟩ | h | h
    · injection h with h1 h2 h3 h4
      exact ⟨h1, h2, h3⟩
    · cases h
    · cases h
  · intro hs
    have hs2 : w.session = false := hs
    have hstep : reconnect sec env (fuel + 1) w = reconnect sec env fuel (reconnect_body sec env w) := by
      simp [reconnect, client_connected, hs2]
    obtain ⟨n, l, -, htr, -⟩ := reconnect_shape sec env fuel (reconnect_body sec env w)
    rw [hstep]
    cases hacc : env.brokerAccepts w.attempts with
    | true =>
      have h1 := (reconnect_body_accepted sec env w hacc).1
      rw [h1, List.append_assoc] at htr
      rw [performed_of_trace htr]
      exact ⟨_, rfl⟩
    | false =>
      have h1 := (reconnect_body_rejected sec env w hacc).1
      rw [h1, List.append_assoc] at htr
      rw [performed_of_trace htr]
      exact ⟨_, rfl⟩
  · rw [String.length_append]
    rfl
  · exact ⟨(WiFi_macAddress env).data, rfl⟩

/-! ## Instances at concrete inputs -/

/-- Instance of `callback_ignores_other_topics` at the acknowledgment topic. -/
theorem callback_ignores_other_topics_witness :
    "medbox/01/dispensed" ≠ "medbox/01/dispense" ∧
    performed World.init (callback sessionLostEnv "medbox/01/dispensed" [116, 114, 117, 101]
      World.init) = [] :=
  ⟨by decide,
    (callback_ignores_other_topics sessionLostEnv "medbox/01/dispensed" [116, 114, 117, 101]
      World.init (by decide)).1⟩

/-- Instance of `reconnect_retries_until_accepted`: the broker of `slowEnv`
rejects two attempts and accepts the third. -/
theorem reconnect_retries_until_accepted_witness :
    client_connected World.init = false ∧
    (∀ k < 2, slowEnv.brokerAccepts (World.init.attempts + k) = false) ∧
    slowEnv.brokerAccepts (World.init.attempts + 2) = true ∧
    ∃ w2, reconnect sampleSecrets slowEnv 3 World.init = .returned w2 ∧
      actions w2 = actions World.init ++ performed World.init w2 ∧
      performed World.init w2 =
        failedAttempts sampleSecrets slowEnv 2 ++ acceptedAttempt sampleSecrets slowEnv ∧
      connectCalls (performed World.init w2) = 2 + 1 ∧
      totalDelay (performed World.init w2) = 2000 * 2 ∧
      client_connected w2 = true :=
  ⟨rfl, by decide, by decide,
    (reconnect_retries_until_accepted sampleSecrets slowEnv World.init 2 rfl (by decide)
      (by decide)).1 3 (by decide)⟩

/-- Instance of `setup_wifi_polls_until_connected`: the network of `slowEnv`
is up at the third poll. -/
theorem setup_wifi_polls_until_connected_witness :
    (∀ j < 2, slowEnv.wifiStatus (World.init.clock + 1 + j) ≠ .WL_CONNECTED) ∧
    slowEnv.wifiStatus (World.init.clock + 1 + 2) = .WL_CONNECTED ∧
    ∃ w2, setup_wifi sampleSecrets slowEnv 2 World.init = .returned w2 ∧
      actions w2 = actions World.init ++ performed World.init w2 ∧
      performed World.init w2 =
        [.delay 10, .wifiBegin (ssid sampleSecrets) (password sampleSecrets)] ++
          List.replicate 2 (.delay 500) ∧
      WiFi_status slowEnv w2 = .WL_CONNECTED :=
  ⟨by decide, by decide,
    (setup_wifi_polls_until_connected sampleSecrets slowEnv World.init 2 (by decide)
      (by decide)).1 2 (by decide)⟩

/-- Instance of `no_connect_before_wifi_up`: the network of `noWifiEnv` never
comes up. -/
theorem no_connect_before_wifi_up_witness :
    (∀ j ≤ 3, noWifiEnv.wifiStatus (1 + j) ≠ .WL_CONNECTED) ∧
    ∃ w, program sampleSecrets noWifiEnv 3 2 = .blocked w ∧
      actions w =
        [.serialBegin 115200, .delay 10,
          .wifiBegin (ssid sampleSecrets) (password sampleSecrets)] ++
          List.replicate 3 (.delay 500) ∧
      connectCalls (actions w) = 0 :=
  ⟨by decide, (no_connect_before_wifi_up sampleSecrets noWifiEnv 3 2 (by decide)).1⟩

end Medbox
